import Mathlib

/-!
Verification of the compose orchestration core (`local/compose.go`) against its
natural-language specification.  The Go code is shallowly embedded: pure Go
functions become Lean functions; the container-engine API is modelled as an
explicit `Runtime` state together with a trace of the engine calls issued and
of the progress events emitted.  Go maps are modelled as association lists
(`goLookup` / `goInsert`), Go `nil` maps as `Option`, and Go slices as lists.
-/

namespace Compose

/-! ## Models of the Go standard library helpers used by the code -/

/-- Model of Go `strings.Split(s, ",")`: splitting around every comma; the
empty input yields one empty field, as in Go. -/
def stringsSplitComma (s : String) : List String :=
  (s.data.splitOn ',').map fun cs => String.mk cs

/-- Model of Go `strings.Join(l, ",")`. -/
def stringsJoinComma (l : List String) : String :=
  String.mk (List.intercalate [','] (l.map String.toList))

/-- Model of Go `filepath.Base` (Unix separators): empty path gives `"."`,
trailing slashes are stripped, an all-slash path gives `"/"`, otherwise the
last path component is returned. -/
def filepathBase (path : String) : String :=
  if path = "" then "."
  else
    let cs := (path.toList.reverse.dropWhile fun c => c = '/').reverse
    if cs = [] then "/"
    else String.mk (cs.reverse.takeWhile fun c => c ≠ '/').reverse

/-- Model of Go `filepath.IsAbs` on Unix: the path starts with a slash. -/
def filepathIsAbs (path : String) : Bool :=
  path.startsWith "/"

/-- Model of Go `filepath.Join(a, b)` for the argument shapes used by the
code under study; the final lexical `Clean` normalisation is not modelled. -/
def filepathJoin (a b : String) : String :=
  if a = "" then b else a ++ "/" ++ b

/-- Lookup in a Go map modelled as an association list (first match). -/
def goLookup {α : Type} : List (String × α) → String → Option α
  | [], _ => none
  | (k', v) :: rest, k => if k' = k then some v else goLookup rest k

/-- Insertion (upsert) into a Go map modelled as an association list: replace
the binding in place when the key is present, append it otherwise. -/
def goInsert {α : Type} (m : List (String × α)) (k : String) (v : α) : List (String × α) :=
  match m with
  | [] => [(k, v)]
  | (k', v') :: rest => if k' = k then (k, v) :: rest else (k', v') :: goInsert rest k v

/-- Lexicographic (alphabetical) comparison of character lists, written as a
structural Boolean function so that it evaluates inside the kernel. -/
def charListLe : List Char → List Char → Bool
  | [], _ => true
  | _ :: _, [] => false
  | a :: as, b :: bs => if a = b then charListLe as bs else decide (a < b)

/-- Alphabetical order on strings (the order `sort.Strings` sorts by). -/
def strLe (a b : String) : Prop :=
  charListLe a.data b.data = true

instance : DecidableRel strLe := fun a b =>
  inferInstanceAs (Decidable (charListLe a.data b.data = true))

/-- Model of Go `sort.Strings`: sorting a string slice in increasing
lexicographic order. -/
def sortStrings (l : List String) : List String :=
  l.insertionSort strLe

/-! ## combinedStatus (`local/compose.go`) -/

/-- One step of the counting loop of `combinedStatus`: the Go map
`nbByStatus` together with the `keys` slice recording first occurrences. -/
def combinedStatusStep (acc : List (String × Nat) × List String) (status : String) :
    List (String × Nat) × List String :=
  match goLookup acc.1 status with
  | none => (goInsert acc.1 status 1, acc.2 ++ [status])
  | some nb => (goInsert acc.1 status (nb + 1), acc.2)

/-- One step of the rendering loop of `combinedStatus`: append `", "` when the
result is already non-empty, then `status(nb)`. -/
def combinedStatusRender (nbByStatus : List (String × Nat)) (result status : String) : String :=
  let nb := (goLookup nbByStatus status).getD 0
  (if result ≠ "" then result ++ ", " else result) ++ status ++ "(" ++ toString nb ++ ")"

/-- Embedding of `combinedStatus`: count containers per state (recording each
state once, at its first occurrence), sort the states, and join
`state(count)` entries with `", "`. -/
def combinedStatus (statuses : List String) : String :=
  let acc := statuses.foldl combinedStatusStep ([], [])
  let keys := sortStrings acc.2
  keys.foldl (combinedStatusRender acc.1) ""

/-- Comma-joining as the specification words it (`", "` separated). -/
def commaJoin : List String → String
  | [] => ""
  | [x] => x
  | x :: y :: rest => x ++ ", " ++ commaJoin (y :: rest)

/-- The specification's description of `combinedStatus`: the alphabetically
sorted, comma-joined `state(count)` summary of the input states. -/
def combinedStatusSpec (statuses : List String) : String :=
  commaJoin ((sortStrings statuses.dedup).map fun st =>
    st ++ "(" ++ toString (statuses.count st) ++ ")")

/-- The label under which a state is rendered: `state(count-looked-up)`. -/
def statusEntry (m : List (String × Nat)) (s : String) : String :=
  s ++ "(" ++ toString ((goLookup m s).getD 0) ++ ")"

/-- Everything after the first rendered entry: `", " ++ entry` repeated. -/
def sepList : List String → String
  | [] => ""
  | x :: rest => ", " ++ x ++ sepList rest

/-! ## Container model and label keys

The moby container-list record, restricted to the fields the code reads. -/

/-- A mount of a live container as reported by the engine (`moby.MountPoint`);
the Go field `Type` is written `type` here because `Type` is reserved. -/
structure MountPoint where
  type : String := ""
  Name : String := ""
  Source : String := ""
  Destination : String := ""
  RW : Bool := false
deriving DecidableEq, Repr

/-- A container as returned by the engine list call (`moby.Container`),
restricted to the fields the code reads. -/
structure MobyContainer where
  ID : String := ""
  Names : List String := []
  Labels : List (String × String) := []
  State : String := ""
  Mounts : List MountPoint := []
deriving DecidableEq, Repr

/-- Modelled from the spec: the label keys (§6 "Label keys") are package
constants defined outside `src/`; the spec gives only their logical names,
which are used here as the key strings.  Only distinctness of the keys
matters to the properties below. -/
def projectLabel : String := "project"

/-- Label key holding the service name of a container. -/
def serviceLabel : String := "service"

/-- Label key holding the schema-version marker. -/
def versionLabel : String := "schemaVersion"

/-- Label key marking one-off containers. -/
def oneoffLabel : String := "oneOff"

/-- Label key holding the config fingerprint of a container. -/
def configHashLabel : String := "configFingerprint"

/-- Label key holding the project working directory. -/
def workingDirLabel : String := "workingDir"

/-- Label key holding the comma-joined source file list. -/
def configFilesLabel : String := "sourceFiles"

/-- Label key holding the replica ordinal of a container. -/
def containerNumberLabel : String := "containerOrdinal"

/-- Label key recording a network's declared (project-local) name. -/
def networkLabel : String := "network"

/-- Label key recording a volume's declared (project-local) name. -/
def volumeLabel : String := "volume"

/-- Modelled from the spec: the schema/version marker value (constant defined
outside `src/`). -/
def ComposeVersion : String := "1.0"

/-! ## Grouping containers by a label (`groupContainerByLabel`) -/

/-- Error message produced by `groupContainerByLabel` for a container missing
the grouping label (Go `fmt.Errorf` with `%q` quoting). -/
def noLabelMessage (labelName id : String) : String :=
  "No label \"" ++ labelName ++ "\" set on container \"" ++ id ++ "\" of compose project"

/-- The loop of `groupContainerByLabel`: fails on the first container missing
the label, otherwise groups containers per label value, recording each value
once at its first occurrence. -/
def groupLoop (labelName : String) :
    List MobyContainer → List (String × List MobyContainer) × List String →
      Except String (List (String × List MobyContainer) × List String)
  | [], acc => .ok acc
  | c :: rest, acc =>
    match goLookup c.Labels labelName with
    | none => .error (noLabelMessage labelName c.ID)
    | some label =>
      match goLookup acc.1 label with
      | none => groupLoop labelName rest (goInsert acc.1 label [c], acc.2 ++ [label])
      | some cs => groupLoop labelName rest (goInsert acc.1 label (cs ++ [c]), acc.2)

/-- Embedding of `groupContainerByLabel`: group the containers by the value
of `labelName` and return the sorted list of distinct values seen. -/
def groupContainerByLabel (containers : List MobyContainer) (labelName : String) :
    Except String (List (String × List MobyContainer) × List String) :=
  (groupLoop labelName containers ([], [])).map fun acc => (acc.1, sortStrings acc.2)

/-- Result row of `Ps` (`compose.ServiceStatus`, the fields the code sets). -/
structure ServiceStatus where
  ID : String := ""
  Name : String := ""
  Desired : Nat := 0
  Replicas : Nat := 0
deriving DecidableEq, Repr

/-- Result row of `List` (`compose.Stack`, the fields the code sets). -/
structure Stack where
  ID : String := ""
  Name : String := ""
  Status : String := ""
deriving DecidableEq, Repr

/-- Embedding of `containersToServiceStatus`: group by the service label and
report desired (all) and running replica counts per service. -/
def containersToServiceStatus (containers : List MobyContainer) :
    Except String (List ServiceStatus) :=
  match groupContainerByLabel containers serviceLabel with
  | .error e => .error e
  | .ok (byLabel, keys) =>
    .ok (keys.map fun service =>
      let cs := (goLookup byLabel service).getD []
      let running := cs.filter fun c => c.State == "running"
      { ID := service, Name := service, Desired := cs.length, Replicas := running.length })

/-- Embedding of `containerToState`. -/
def containerToState (containers : List MobyContainer) : List String :=
  containers.map fun c => c.State

/-- Embedding of `containersToStacks`: group by the project label and report
the combined status per project. -/
def containersToStacks (containers : List MobyContainer) : Except String (List Stack) :=
  match groupContainerByLabel containers projectLabel with
  | .error e => .error e
  | .ok (byLabel, keys) =>
    .ok (keys.map fun project =>
      { ID := project, Name := project,
        Status := combinedStatus (containerToState ((goLookup byLabel project).getD [])) })

/-! ## Project model (compose-go `types`, the fields the code reads) -/

/-- An IPAM pool of a network definition (`types.IPAMPool`). -/
structure IpamPool where
  Subnet : String := ""
deriving DecidableEq, Repr

/-- The IPAM block of a network definition (`types.IPAMConfig`). -/
structure IpamConfig where
  Driver : String := ""
  Config : List IpamPool := []
deriving DecidableEq, Repr

/-- A project-level network definition (`types.NetworkConfig`).  The Go
`External` field is a struct whose `External` sub-field is the flag read by
the code; it is modelled as the flag itself.  A Go `nil` labels map is
modelled as `none`. -/
structure NetworkConfig where
  Name : String := ""
  Driver : String := ""
  DriverOpts : List (String × String) := []
  Ipam : IpamConfig := {}
  External : Bool := false
  Internal : Bool := false
  Attachable : Bool := false
  Labels : Option (List (String × String)) := none
deriving DecidableEq, Repr

/-- A project-level volume definition (`types.VolumeConfig`), modelled like
`NetworkConfig`. -/
structure VolumeConfig where
  Name : String := ""
  Driver : String := ""
  DriverOpts : List (String × String) := []
  External : Bool := false
  Labels : Option (List (String × String)) := none
deriving DecidableEq, Repr

/-- Bind options of a declared service volume (`types.ServiceVolumeBind`). -/
structure ServiceVolumeBind where
  Propagation : String := ""
deriving DecidableEq, Repr

/-- Volume options of a declared service volume (`types.ServiceVolumeVolume`). -/
structure ServiceVolumeVolume where
  NoCopy : Bool := false
deriving DecidableEq, Repr

/-- Tmpfs options of a declared service volume (`types.ServiceVolumeTmpfs`). -/
structure ServiceVolumeTmpfs where
  Size : Nat := 0
deriving DecidableEq, Repr

/-- A volume/mount declared by a service (`types.ServiceVolumeConfig`); the
Go field `Type` is written `type` here because `Type` is reserved. -/
structure ServiceVolumeConfig where
  type : String := ""
  Source : String := ""
  Target : String := ""
  ReadOnly : Bool := false
  Consistency : String := ""
  Bind : Option ServiceVolumeBind := none
  Volume : Option ServiceVolumeVolume := none
  Tmpfs : Option ServiceVolumeTmpfs := none
deriving DecidableEq, Repr

/-- Per-service network attachment settings (`types.ServiceNetworkConfig`);
a `nil` pointer is modelled as `none` at the use sites. -/
structure ServiceNetworkConfig where
  Aliases : List String := []
deriving DecidableEq, Repr

/-- A published port declaration (`types.ServicePortConfig`, the fields the
code reads). -/
structure ServicePortConfig where
  Target : Nat := 0
  Published : Nat := 0
  Protocol : String := ""
deriving DecidableEq, Repr

/-- A service definition (`types.ServiceConfig`), restricted to the fields
`local/compose.go` reads.  The `HealthCheck` and `StopGracePeriod` fields are
consumed only through helpers defined outside `src/` and are not modelled. -/
structure ServiceConfig where
  Name : String := ""
  CapAdd : List String := []
  CapDrop : List String := []
  Command : List String := []
  Entrypoint : List String := []
  DomainName : String := ""
  Environment : List (String × Option String) := []
  Hostname : String := ""
  Image : String := ""
  Init : Option Bool := none
  MacAddress : String := ""
  NetworkMode : String := ""
  Networks : List (String × Option ServiceNetworkConfig) := []
  Ports : List ServicePortConfig := []
  ReadOnly : Bool := false
  StdinOpen : Bool := false
  StopSignal : String := ""
  Sysctls : List (String × String) := []
  Tty : Bool := false
  User : String := ""
  Volumes : List ServiceVolumeConfig := []
  WorkingDir : String := ""
deriving DecidableEq, Repr

/-- A project (`types.Project`), restricted to the fields the code reads.
The Go `Networks` and `Volumes` maps are modelled as association lists whose
iteration order is the list order. -/
structure Project where
  Name : String := ""
  WorkingDir : String := ""
  ComposeFiles : List String := []
  Services : List ServiceConfig := []
  Networks : List (String × NetworkConfig) := []
  Volumes : List (String × VolumeConfig) := []
deriving DecidableEq, Repr

/-! ## Mount construction (`buildContainerMountOptions`) -/

/-- Bind options of an engine mount (`mount.BindOptions`). -/
structure BindOptions where
  Propagation : String := ""
deriving DecidableEq, Repr

/-- Volume options of an engine mount (`mount.VolumeOptions`). -/
structure VolumeOptions where
  NoCopy : Bool := false
deriving DecidableEq, Repr

/-- Tmpfs options of an engine mount (`mount.TmpfsOptions`). -/
structure TmpfsOptions where
  SizeBytes : Nat := 0
deriving DecidableEq, Repr

/-- An engine mount request (`mount.Mount`); the Go field `Type` is written
`type` here because `Type` is reserved. -/
structure Mount where
  type : String := ""
  Source : String := ""
  Target : String := ""
  ReadOnly : Bool := false
  Consistency : String := ""
  Bind : Option BindOptions := none
  Volume : Option VolumeOptions := none
  Tmpfs : Option TmpfsOptions := none
deriving DecidableEq, Repr

/-- Modelled from its call site: the package-level `contains` helper (defined
outside `src/`), membership of a string in a slice. -/
def contains (strs : List String) (s : String) : Bool :=
  strs.any fun x => x == s

/-- Embedding of `buildBindOption`. -/
def buildBindOption (bind : Option ServiceVolumeBind) : Option BindOptions :=
  match bind with
  | none => none
  | some b => some { Propagation := b.Propagation }

/-- Embedding of `buildVolumeOptions`. -/
def buildVolumeOptions (vol : Option ServiceVolumeVolume) : Option VolumeOptions :=
  match vol with
  | none => none
  | some v => some { NoCopy := v.NoCopy }

/-- Embedding of `buildTmpfsOptions`. -/
def buildTmpfsOptions (tmpfs : Option ServiceVolumeTmpfs) : Option TmpfsOptions :=
  match tmpfs with
  | none => none
  | some t => some { SizeBytes := t.Size }

/-- The mount rebuilt from a prior container's mount point in the inheritance
loop of `buildContainerMountOptions`: the source of a volume mount is its
volume name, and only type/source/target/read-only are carried over. -/
def convertInheritedMount (m : MountPoint) : Mount :=
  { type := m.type,
    Source := if m.type = "volume" then m.Name else m.Source,
    Target := m.Destination,
    ReadOnly := !m.RW }

/-- The non-tmpfs mounts inherited from a prior container. -/
def inheritedMounts (c : MobyContainer) : List Mount :=
  (c.Mounts.filter fun m => m.type != "tmpfs").map convertInheritedMount

/-- The targets recorded as inherited while walking a prior container. -/
def inheritedTargets (c : MobyContainer) : List String :=
  (c.Mounts.filter fun m => m.type != "tmpfs").map fun m => m.Destination

/-- The mount built from a declared service volume in the second loop of
`buildContainerMountOptions`; a relative bind source is joined onto the
project working directory. -/
def convertServiceVolume (p : Project) (v : ServiceVolumeConfig) : Mount :=
  { type := v.type,
    Source :=
      if v.type == "bind" && !filepathIsAbs v.Source then filepathJoin p.WorkingDir v.Source
      else v.Source,
    Target := v.Target,
    ReadOnly := v.ReadOnly,
    Consistency := v.Consistency,
    Bind := buildBindOption v.Bind,
    Volume := buildVolumeOptions v.Volume,
    Tmpfs := buildTmpfsOptions v.Tmpfs }

/-- Embedding of `buildContainerMountOptions`: inherit every non-tmpfs mount
of the prior container, then add the declared volumes whose target was not
inherited. -/
def buildContainerMountOptions (p : Project) (s : ServiceConfig) (inherit : Option MobyContainer) :
    List Mount :=
  let mounts := match inherit with | none => [] | some c => inheritedMounts c
  let inherited := match inherit with | none => [] | some c => inheritedTargets c
  mounts ++ (s.Volumes.filter fun v => !contains inherited v.Target).map (convertServiceVolume p)

/-- Statement of claim C1 as written: inherited are exactly the non-tmpfs
mounts of the prior container whose target the new definition also declares
(source preserved); tmpfs mounts are never inherited; mounts present only on
the old container are dropped; mounts declared only by the new definition are
added. -/
def mountInheritClaim : Prop :=
  ∀ (p : Project) (s : ServiceConfig) (c : MobyContainer),
    (∀ m ∈ c.Mounts, m.type ≠ "tmpfs" → (∃ v ∈ s.Volumes, v.Target = m.Destination) →
      ∃ r ∈ buildContainerMountOptions p s (some c), r.Target = m.Destination ∧
        r.Source = (if m.type = "volume" then m.Name else m.Source))
    ∧ (∀ m ∈ c.Mounts, m.type = "tmpfs" →
        ∀ r ∈ buildContainerMountOptions p s (some c), r.Target = m.Destination →
          ∃ v ∈ s.Volumes, v.Target = m.Destination)
    ∧ (∀ m ∈ c.Mounts, (¬ ∃ v ∈ s.Volumes, v.Target = m.Destination) →
        ∀ r ∈ buildContainerMountOptions p s (some c), r.Target ≠ m.Destination)
    ∧ (∀ v ∈ s.Volumes, (¬ ∃ m ∈ c.Mounts, m.Destination = v.Target) →
        ∃ r ∈ buildContainerMountOptions p s (some c), r.Target = v.Target)

/-- Sample prior container for the C1 counterexample: it holds a single
volume mount at `/old` that the new definition does not declare. -/
def oldOnlyContainer : MobyContainer :=
  { ID := "old", Mounts := [{ type := "volume", Name := "V", Source := "/var/lib/V",
                              Destination := "/old", RW := true }] }

/-- Sample service for the C1 counterexample: it declares no volumes. -/
def noVolumeService : ServiceConfig :=
  { Name := "web" }

/-- Sample project and service of the spec's mount-inheritance example
(§8): prior container with `/data` (volume, src V) and `/tmp` (tmpfs); new
definition declaring `/data` and `/cache` (bind, src `./cache`). -/
def exProject : Project :=
  { Name := "demo", WorkingDir := "/wd" }

/-- The spec example's newly declared `/cache` bind volume. -/
def exCacheVolume : ServiceVolumeConfig :=
  { type := "bind", Source := "./cache", Target := "/cache" }

/-- The spec example's new service definition. -/
def exService : ServiceConfig :=
  { Name := "web",
    Volumes := [{ type := "volume", Source := "V", Target := "/data" }, exCacheVolume] }

/-- The spec example's prior `/data` volume mount. -/
def exDataMount : MountPoint :=
  { type := "volume", Name := "V", Source := "/var/lib/docker/volumes/V/_data",
    Destination := "/data", RW := true }

/-- The spec example's prior container. -/
def exContainer : MobyContainer :=
  { ID := "prior",
    Mounts := [exDataMount, { type := "tmpfs", Destination := "/tmp", RW := true }] }

/-! ## Container create options (`getContainerCreateOptions`) and the label codec -/

/-- Model of Go `strings.HasPrefix`, structurally (so it evaluates in the
kernel). -/
def stringHasPrefix (s pre : String) : Bool :=
  pre.data.isPrefixOf s.data

/-- Result of a Go computation that may panic. -/
inductive GoPanic (α : Type) where
  | ok (val : α)
  | panics (msg : String)
deriving DecidableEq, Repr

/-- Modelled from compose conventions: `toMobyEnv` (defined outside `src/`)
renders the environment mapping as `KEY=value` strings, a bare `KEY` when the
value is unset. -/
def toMobyEnv (env : List (String × Option String)) : List String :=
  env.map fun kv =>
    match kv.2 with
    | none => kv.1
    | some v => kv.1 ++ "=" ++ v

/-- Modelled from the spec: `jsonHash` (defined outside `src/`) computes the
config fingerprint, "a stable hash over all fields that affect container
identity".  Its only property used below is determinism in the service
value, so a canonical serialisation of identity-relevant fields stands in
for the JSON hash. -/
def jsonHash (s : ServiceConfig) : Except String String :=
  .ok (String.intercalate "\x00"
    ([s.Name, s.Image, s.User, s.WorkingDir, s.NetworkMode, s.Hostname, s.MacAddress]
      ++ s.Command ++ s.Entrypoint ++ toMobyEnv s.Environment
      ++ (s.Volumes.map fun v => v.Source ++ ":" ++ v.Target)
      ++ (s.Ports.map fun p => toString p.Target ++ "/" ++ p.Protocol)))

/-- Endpoint settings of the networking config (`network.EndpointSettings`,
the field the code sets). -/
structure EndpointSettings where
  Aliases : List String := []
deriving DecidableEq, Repr

/-- The networking config attached at container creation
(`network.NetworkingConfig`). -/
structure NetworkingConfig where
  EndpointsConfig : List (String × EndpointSettings) := []
deriving DecidableEq, Repr

/-- A host port binding (`nat.PortBinding`, the field the code sets). -/
structure PortBinding where
  HostIP : String := ""
  HostPort : String := ""
deriving DecidableEq, Repr

/-- The container config (`container.Config`), restricted to the fields the
code sets; `Healthcheck` and `StopTimeout` are produced by helpers defined
outside `src/` and are not modelled. -/
structure ContainerConfig where
  Hostname : String := ""
  Domainname : String := ""
  User : String := ""
  ExposedPorts : List String := []
  Tty : Bool := false
  OpenStdin : Bool := false
  StdinOnce : Bool := false
  AttachStdin : Bool := false
  AttachStderr : Bool := false
  AttachStdout : Bool := false
  Cmd : List String := []
  Image : String := ""
  WorkingDir : String := ""
  Entrypoint : List String := []
  NetworkDisabled : Bool := false
  MacAddress : String := ""
  Labels : List (String × String) := []
  StopSignal : String := ""
  Env : List String := []
deriving DecidableEq, Repr

/-- The host config (`container.HostConfig`), the fields the code sets. -/
structure HostConfig where
  Mounts : List Mount := []
  CapAdd : List String := []
  CapDrop : List String := []
  NetworkMode : String := ""
  Init : Option Bool := none
  ReadonlyRootfs : Bool := false
  Sysctls : List (String × String) := []
  PortBindings : List (String × List PortBinding) := []
deriving DecidableEq, Repr

/-- The triple returned by `getContainerCreateOptions`. -/
structure CreateOptions where
  Config : ContainerConfig := {}
  HostConfig : HostConfig := {}
  NetworkingConfig : NetworkingConfig := {}
deriving DecidableEq, Repr

/-- The `nat.Port` key `"<target>/<protocol>"`. -/
def natPortKey (target : Nat) (protocol : String) : String :=
  toString target ++ "/" ++ protocol

/-- Embedding of `buildContainerPorts`; the Go `nat.PortSet` is a map used
as a set, modelled as a duplicate-free list of keys. -/
def buildContainerPorts (s : ServiceConfig) : List String :=
  s.Ports.foldl
    (fun ports p =>
      let key := natPortKey p.Target p.Protocol
      if ports.contains key then ports else ports ++ [key])
    []

/-- Embedding of `buildContainerBindingOptions`; the Go `nat.PortMap` is
modelled as an association list. -/
def buildContainerBindingOptions (s : ServiceConfig) : List (String × List PortBinding) :=
  s.Ports.foldl
    (fun bindings port =>
      let p := natPortKey port.Target port.Protocol
      let binding : PortBinding :=
        { HostPort := if port.Published > 0 then toString port.Published else "" }
      goInsert bindings p [binding])
    []

/-- Embedding of `getNetworksForService`. -/
def getNetworksForService (s : ServiceConfig) : List (String × Option ServiceNetworkConfig) :=
  if s.Networks.length > 0 then s.Networks else [("default", none)]

/-- Embedding of `getNetworkMode`.  The Go `for name := range` loop over the
service's networks map returns on its first iteration; map iteration is
modelled as list order, so the first entry's key is used.  A Go lookup of a
missing project network yields the zero `NetworkConfig` (empty name). -/
def getNetworkMode (p : Project) (service : ServiceConfig) : GoPanic String :=
  let mode := service.NetworkMode
  if mode = "" then
    if p.Networks.length > 0 then
      match getNetworksForService service with
      | [] => .ok "none"
      | (name, _) :: _ => .ok ((goLookup p.Networks name).getD {}).Name
    else .ok "none"
  else if stringHasPrefix mode "service:" then .panics "Not yet implemented"
  else if stringHasPrefix mode "container:" then .panics "Not yet implemented"
  else .ok mode

/-- Embedding of `getAliases`: the service name plus the attachment's
aliases (a `nil` attachment pointer is `none`). -/
def getAliases (s : ServiceConfig) (c : Option ServiceNetworkConfig) : List String :=
  s.Name :: (match c with | none => [] | some cfg => cfg.Aliases)

/-- Embedding of `buildDefaultNetworkConfig`. -/
def buildDefaultNetworkConfig (s : ServiceConfig) (networkMode : String) : NetworkingConfig :=
  { EndpointsConfig :=
      [(networkMode, { Aliases := getAliases s ((goLookup s.Networks networkMode).getD none) })] }

/-- The label set attached to a created container, as built inline by
`getContainerCreateOptions`. -/
def containerLabels (p : Project) (s : ServiceConfig) (number : Nat) (hash : String) :
    List (String × String) :=
  [(projectLabel, p.Name),
   (serviceLabel, s.Name),
   (versionLabel, ComposeVersion),
   (oneoffLabel, "False"),
   (configHashLabel, hash),
   (workingDirLabel, p.WorkingDir),
   (configFilesLabel, stringsJoinComma p.ComposeFiles),
   (containerNumberLabel, toString number)]

/-- Embedding of `getContainerCreateOptions`; a Go panic raised by
`getNetworkMode` propagates as `GoPanic.panics`. -/
def getContainerCreateOptions (p : Project) (s : ServiceConfig) (number : Nat)
    (inherit : Option MobyContainer) : GoPanic (Except String CreateOptions) :=
  match jsonHash s with
  | .error err => .ok (.error err)
  | .ok hash =>
    let labels := containerLabels p s number hash
    let image := if s.Image = "" then p.Name ++ "_" ++ s.Name else s.Image
    let containerConfig : ContainerConfig :=
      { Hostname := s.Hostname, Domainname := s.DomainName, User := s.User,
        ExposedPorts := buildContainerPorts s,
        Tty := s.Tty, OpenStdin := s.StdinOpen, StdinOnce := true, AttachStdin := false,
        AttachStderr := true, AttachStdout := true,
        Cmd := s.Command, Image := image, WorkingDir := s.WorkingDir,
        Entrypoint := s.Entrypoint,
        NetworkDisabled := s.NetworkMode == "disabled",
        MacAddress := s.MacAddress, Labels := labels, StopSignal := s.StopSignal,
        Env := toMobyEnv s.Environment }
    let mountOptions := buildContainerMountOptions p s inherit
    let bindings := buildContainerBindingOptions s
    match getNetworkMode p s with
    | .panics msg => .panics msg
    | .ok networkMode =>
      .ok (.ok
        { Config := containerConfig,
          HostConfig :=
            { Mounts := mountOptions, CapAdd := s.CapAdd, CapDrop := s.CapDrop,
              NetworkMode := networkMode, Init := s.Init, ReadonlyRootfs := s.ReadOnly,
              Sysctls := s.Sysctls, PortBindings := bindings },
          NetworkingConfig := buildDefaultNetworkConfig s networkMode })

/-- Project options rebuilt from labels (`cli.ProjectOptions`, the fields the
decoder sets). -/
structure ProjectOptions where
  ConfigPaths : List String := []
  WorkingDir : String := ""
  Name : String := ""
deriving DecidableEq, Repr

/-- Embedding of `loadProjectOptionsFromLabels`: split the recorded source
file list on commas, keep only each entry's base name, and rebuild the
project options with the recorded working directory and project name.
`cli.NewProjectOptions` is an external constructor modelled as plain record
construction; its `WithOsEnv` option does not affect the fields modelled. -/
def loadProjectOptionsFromLabels (c : MobyContainer) : ProjectOptions :=
  let relativePathConfigFiles := stringsSplitComma ((goLookup c.Labels configFilesLabel).getD "")
  { ConfigPaths := relativePathConfigFiles.map filepathBase,
    WorkingDir := (goLookup c.Labels workingDirLabel).getD "",
    Name := (goLookup c.Labels projectLabel).getD "" }

/-- Statement of claim C2 as written: whenever the create options of a
container are computed, decoding the labels they carry yields project
options with the same project name, working directory, and source file list
as the original project. -/
def labelRoundTripClaim : Prop :=
  ∀ (p : Project) (s : ServiceConfig) (number : Nat) (inherit : Option MobyContainer)
    (opts : CreateOptions),
    getContainerCreateOptions p s number inherit = .ok (.ok opts) →
      loadProjectOptionsFromLabels { Labels := opts.Config.Labels } =
        { ConfigPaths := p.ComposeFiles, WorkingDir := p.WorkingDir, Name := p.Name }

/-- Sample project for the C2 counterexample: its source file is recorded by
an absolute path. -/
def rtProject : Project :=
  { Name := "demo", WorkingDir := "/work", ComposeFiles := ["/work/docker-compose.yml"] }

/-- Sample service used for the label codec and network-mode claims. -/
def rtService : ServiceConfig :=
  { Name := "web" }

/-- The create options computed for the C2 counterexample input. -/
def rtOpts : CreateOptions :=
  match getContainerCreateOptions rtProject rtService 1 none with
  | .ok (.ok o) => o
  | _ => {}

/-- Sample project for the C2 witness: its source file is recorded by a bare
file name, on which the round trip is lossless. -/
def wProject : Project :=
  { Name := "demo", WorkingDir := "/work", ComposeFiles := ["docker-compose.yml"] }

/-- The create options computed for the C2 witness input. -/
def wOpts : CreateOptions :=
  match getContainerCreateOptions wProject rtService 1 none with
  | .ok (.ok o) => o
  | _ => {}

/-- Sample service with a service-scoped network mode (C9). -/
def svcModeService : ServiceConfig :=
  { Name := "web", NetworkMode := "service:db" }

/-! ## Engine runtime model

The container engine (an external collaborator reached through atomic remote
calls) is modelled as an explicit state; each operation additionally returns
the list of state-changing engine calls it issued and the progress events it
emitted. -/

/-- A live network as reported by the engine. -/
structure NetworkResource where
  ID : String := ""
  Name : String := ""
  Labels : List (String × String) := []
deriving DecidableEq, Repr

/-- A live volume as reported by the engine. -/
structure VolumeResource where
  Name : String := ""
  Driver : String := ""
  DriverOpts : List (String × String) := []
  Labels : List (String × String) := []
deriving DecidableEq, Repr

/-- The IPAM block of a network create request (`network.IPAM`). -/
structure NetworkIpam where
  Driver : String := ""
  Config : List IpamPool := []
deriving DecidableEq, Repr

/-- A network create request (`moby.NetworkCreate`, the fields the code
sets). -/
structure NetworkCreateOpts where
  Labels : List (String × String) := []
  Driver : String := ""
  Options : List (String × String) := []
  Internal : Bool := false
  Attachable : Bool := false
  IPAM : Option NetworkIpam := none
deriving DecidableEq, Repr

/-- A volume create request (`mobyvolume.VolumeCreateBody`, the fields the
code sets). -/
structure VolumeCreateBody where
  Labels : List (String × String) := []
  Name : String := ""
  Driver : String := ""
  DriverOpts : List (String × String) := []
deriving DecidableEq, Repr

/-- A state-changing call issued to the engine. -/
inductive ApiCall where
  | networkCreate (name : String) (opts : NetworkCreateOpts)
  | volumeCreate (body : VolumeCreateBody)
  | containerStop (id : String)
  | containerRemove (id : String)
  | networkRemove (id : String)
deriving DecidableEq, Repr

/-- Modelled from the spec (§4.5): the lifecycle statuses of the progress
package (defined outside `src/`). -/
inductive ProgressStatus where
  | working
  | done
  | error
deriving DecidableEq, Repr

/-- A progress event (modelled from the progress package, outside `src/`). -/
structure ProgressEvent where
  ID : String := ""
  Text : String := ""
  Status : ProgressStatus := .working
deriving DecidableEq, Repr

/-- The `Creating` progress event for a named resource. -/
def creatingEvent (id : String) : ProgressEvent :=
  { ID := id, Text := "Creating", Status := .working }

/-- The `Created` progress event. -/
def createdEvent (id : String) : ProgressEvent :=
  { ID := id, Text := "Created", Status := .done }

/-- The `Error` progress event. -/
def errorEvent (id : String) : ProgressEvent :=
  { ID := id, Text := "Error", Status := .error }

/-- The `Stopping` progress event. -/
def stoppingEvent (id : String) : ProgressEvent :=
  { ID := id, Text := "Stopping", Status := .working }

/-- The `Removing` progress event. -/
def removingEvent (id : String) : ProgressEvent :=
  { ID := id, Text := "Removing", Status := .working }

/-- The `Removed` progress event. -/
def removedEvent (id : String) : ProgressEvent :=
  { ID := id, Text := "Removed", Status := .done }

/-- The engine state.  `networkCreateFails` / `volumeCreateFails` model the
names on which the engine's create call fails, so that both outcomes of a
create are representable. -/
structure Runtime where
  networks : List NetworkResource := []
  volumes : List VolumeResource := []
  containers : List MobyContainer := []
  networkCreateFails : List String := []
  volumeCreateFails : List String := []
deriving DecidableEq, Repr

deriving instance DecidableEq for Except

/-- Result of an engine-touching operation: a value, the new engine state,
the state-changing calls issued, and the progress events emitted. -/
structure EngineResult (α : Type) where
  result : α
  runtime : Runtime
  calls : List ApiCall := []
  events : List ProgressEvent := []
deriving DecidableEq, Repr

/-- Embedding of `ensureNetwork`.  `NetworkInspect` is modelled as lookup by
name in the runtime (inspect failures other than not-found are not
modelled); the wrapped create error of `errors.Wrapf` is modelled as the Go
format text plus a fixed engine message. -/
def ensureNetwork (rt : Runtime) (n : NetworkConfig) : EngineResult (Except String Unit) :=
  if rt.networks.any fun x => x.Name == n.Name then
    { result := .ok (), runtime := rt }
  else if n.External then
    { result := .error ("network " ++ n.Name ++ " declared as external, but could not be found"),
      runtime := rt }
  else
    let createOpts : NetworkCreateOpts :=
      { Labels := n.Labels.getD [],
        Driver := n.Driver,
        Options := n.DriverOpts,
        Internal := n.Internal,
        Attachable := n.Attachable,
        IPAM :=
          if n.Ipam.Driver ≠ "" ∨ n.Ipam.Config ≠ [] then
            some { Driver := n.Ipam.Driver,
                   Config := n.Ipam.Config.map fun c => { Subnet := c.Subnet } }
          else none }
    let networkEventName := "Network \"" ++ n.Name ++ "\""
    if n.Name ∈ rt.networkCreateFails then
      { result := .error ("failed to create network " ++ n.Name ++ ": engine failure"),
        runtime := rt,
        calls := [.networkCreate n.Name createOpts],
        events := [creatingEvent networkEventName, errorEvent networkEventName] }
    else
      { result := .ok (),
        runtime := { rt with networks := rt.networks ++
          [{ ID := n.Name, Name := n.Name, Labels := n.Labels.getD [] }] },
        calls := [.networkCreate n.Name createOpts],
        events := [creatingEvent networkEventName, createdEvent networkEventName] }

/-- The not-found error returned by the modelled `VolumeInspect` for an
absent volume. -/
def volumeNotFoundError (name : String) : String :=
  "no such volume: " ++ name

/-- Embedding of `ensureVolume`.  `VolumeInspect` is modelled as lookup by
name.  Faithful to the source: when the volume is absent it is created
without consulting the `External` flag, and after a successful create the
function still returns the pending inspect error (the branch ends in
`return err` with the not-found error still in `err`). -/
def ensureVolume (rt : Runtime) (volume : VolumeConfig) : EngineResult (Except String Unit) :=
  if rt.volumes.any fun x => x.Name == volume.Name then
    { result := .ok (), runtime := rt }
  else
    let eventName := "Volume \"" ++ volume.Name ++ "\""
    let body : VolumeCreateBody :=
      { Labels := volume.Labels.getD [], Name := volume.Name,
        Driver := volume.Driver, DriverOpts := volume.DriverOpts }
    if volume.Name ∈ rt.volumeCreateFails then
      { result := .error "engine failure",
        runtime := rt,
        calls := [.volumeCreate body],
        events := [creatingEvent eventName, errorEvent eventName] }
    else
      { result := .error (volumeNotFoundError volume.Name),
        runtime := { rt with volumes := rt.volumes ++
          [{ Name := volume.Name, Driver := volume.Driver,
             DriverOpts := volume.DriverOpts, Labels := volume.Labels.getD [] }] },
        calls := [.volumeCreate body],
        events := [creatingEvent eventName, createdEvent eventName] }

/-! ## Project reconstruction and Down -/

/-- The containers carrying the project-identity label equal to the given
name (`ContainerList` with `projectFilter`). -/
def projectFilterContainers (rt : Runtime) (projectName : String) : List MobyContainer :=
  rt.containers.filter fun c => goLookup c.Labels projectLabel == some projectName

/-- Embedding of `projectFromContainerLabels`.  The external specification
loader `cli.ProjectFromOptions` is passed in as `loader`. -/
def projectFromContainerLabels (rt : Runtime) (projectName : String)
    (loader : ProjectOptions → Except String Project) : Except String (Option Project) :=
  match projectFilterContainers rt projectName with
  | [] => .ok none
  | c0 :: rest =>
    let options := loadProjectOptionsFromLabels c0
    if options.ConfigPaths.headD "" = "-" then
      .ok (some { Name := projectName,
                  Services := (c0 :: rest).map fun c =>
                    { Name := (goLookup c.Labels serviceLabel).getD "" } })
    else
      match loader options with
      | .error e => .error e
      | .ok project => .ok (some project)

/-- Embedding of `getContainerName`: the first name whose only slash is the
leading one (the canonical name), else the first name; the leading slash is
stripped. -/
def getContainerName (c : MobyContainer) : String :=
  match c.Names.find? (fun name =>
      stringHasPrefix name "/" && !((name.data.drop 1).contains '/')) with
  | some name => String.mk (name.data.drop 1)
  | none => String.mk ((c.Names.headD "").data.drop 1)

/-- Stopping and removing one container (the goroutine body of
`removeContainers`); stop/remove failures are not modelled. -/
def stopAndRemove (rt : Runtime) (c : MobyContainer) :
    Runtime × List ApiCall × List ProgressEvent :=
  let eventName := "Container " ++ getContainerName c
  ({ rt with containers := rt.containers.filter fun x => x.ID != c.ID },
   [.containerStop c.ID, .containerRemove c.ID],
   [stoppingEvent eventName, removingEvent eventName, removedEvent eventName])

/-- Embedding of `removeContainers`: stop and remove every container
matching the filter (the concurrent goroutines are linearised in list
order). -/
def removeContainers (rt : Runtime) (filterCs : MobyContainer → Bool) :
    Runtime × List ApiCall × List ProgressEvent :=
  (rt.containers.filter filterCs).foldl
    (fun acc c =>
      let res := stopAndRemove acc.1 c
      (res.1, acc.2.1 ++ res.2.1, acc.2.2 ++ res.2.2))
    (rt, [], [])

/-- Embedding of `Down`.  `InReverseDependencyOrder` is defined outside
`src/`; modelled from the spec (§4.1–4.2): it applies the callback once per
service, dependents before dependencies — modelled as reverse declaration
order (the claims below do not depend on the order).  Network removal
failures are not modelled. -/
def Down (rt : Runtime) (projectName : String)
    (loader : ProjectOptions → Except String Project) :
    EngineResult (Except String Unit) :=
  match projectFromContainerLabels rt projectName loader with
  | .error e => { result := .error e, runtime := rt }
  | .ok none => { result := .ok (), runtime := rt }
  | .ok (some project) =>
    let afterServices := project.Services.reverse.foldl
      (fun (acc : Runtime × List ApiCall × List ProgressEvent) service =>
        let res := removeContainers acc.1 fun c =>
          (goLookup c.Labels projectLabel == some project.Name) &&
          (goLookup c.Labels serviceLabel == some service.Name)
        (res.1, acc.2.1 ++ res.2.1, acc.2.2 ++ res.2.2))
      (rt, [], [])
    let nets := afterServices.1.networks.filter fun n =>
      goLookup n.Labels projectLabel == some projectName
    let afterNets := nets.foldl
      (fun (acc : Runtime × List ApiCall × List ProgressEvent) n =>
        let eventName := "Network \"" ++ n.Name ++ "\""
        ({ acc.1 with networks := acc.1.networks.filter fun x => x.ID != n.ID },
         acc.2.1 ++ [.networkRemove n.ID],
         acc.2.2 ++ [removingEvent eventName, removedEvent eventName]))
      (afterServices.1, afterServices.2.1, afterServices.2.2)
    { result := .ok (), runtime := afterNets.1, calls := afterNets.2.1,
      events := afterNets.2.2 }

/-! ## Up -/

/-- Model of compose-go `Labels.Add`: adding to a `nil` map allocates a
fresh map, adding to a non-nil map updates it in place (the entry
definitions below account for the aliasing this causes). -/
def labelsAdd (l : Option (List (String × String))) (key value : String) :
    Option (List (String × String)) :=
  some (goInsert (l.getD []) key value)

/-- Modelled from the spec (§6): `ensureImagesExists` (outside `src/`) pulls
or builds missing images; it does not modify the project and its effects
(image pulls) are outside the resource model, so it is modelled as a
successful no-op. -/
def ensureImagesExists (_ : Runtime) (_ : Project) : Except String Unit :=
  .ok ()

/-- Modelled from the spec (§4.1–4.2): `InDependencyOrder` (outside `src/`)
applies `ensureService` (outside `src/`) to every service over the
dependency DAG; per the spec, service reconciliation does not modify the
project or its network/volume definitions.  Its container-level engine
effects are immaterial to the claims below and are modelled as a successful
pass leaving the runtime unchanged. -/
def inDependencyOrder (rt : Runtime) (_ : Project) : Except String Unit × Runtime :=
  (.ok (), rt)

/-- The label map produced by the three `Labels.Add` calls of the Up network
loop. -/
def upNetworkLabels (projectName k : String) (network : NetworkConfig) :
    Option (List (String × String)) :=
  labelsAdd (labelsAdd (labelsAdd network.Labels networkLabel k) projectLabel projectName)
    versionLabel ComposeVersion

/-- The network entry as it stands in the project's map after one iteration
of the Up network loop: a non-external network named by its key is renamed
to `<project>_<key>` and written back; the label additions are visible in
the stored entry exactly when the original labels map was non-nil (the Go
struct copy shares the underlying map). -/
def upNetworkEntry (projectName k : String) (network : NetworkConfig) : NetworkConfig :=
  { network with
    Name :=
      if !network.External && network.Name == k then projectName ++ "_" ++ k
      else network.Name,
    Labels :=
      match network.Labels with
      | none => none
      | some _ => upNetworkLabels projectName k network }

/-- The network configuration value passed to `ensureNetwork` for an entry
of the Up network loop. -/
def upNetworkConfig (projectName k : String) (network : NetworkConfig) : NetworkConfig :=
  { network with
    Name :=
      if !network.External && network.Name == k then projectName ++ "_" ++ k
      else network.Name,
    Labels := upNetworkLabels projectName k network }

/-- The label map produced by the three `Labels.Add` calls of the Up volume
loop. -/
def upVolumeLabels (projectName k : String) (volume : VolumeConfig) :
    Option (List (String × String)) :=
  labelsAdd (labelsAdd (labelsAdd volume.Labels volumeLabel k) projectLabel projectName)
    versionLabel ComposeVersion

/-- The volume entry as it stands in the project's map after one iteration
of the Up volume loop (note the source renames on `Name != ""`, not on
`Name == k`). -/
def upVolumeEntry (projectName k : String) (volume : VolumeConfig) : VolumeConfig :=
  { volume with
    Name :=
      if !volume.External && volume.Name != "" then projectName ++ "_" ++ k
      else volume.Name,
    Labels :=
      match volume.Labels with
      | none => none
      | some _ => upVolumeLabels projectName k volume }

/-- The volume configuration value passed to `ensureVolume` for an entry of
the Up volume loop. -/
def upVolumeConfig (projectName k : String) (volume : VolumeConfig) : VolumeConfig :=
  { volume with
    Name :=
      if !volume.External && volume.Name != "" then projectName ++ "_" ++ k
      else volume.Name,
    Labels := upVolumeLabels projectName k volume }

/-- The network loop of `Up`: process entries in (modelled) map order,
returning early on the first `ensureNetwork` error; the project's map holds
the updated entries processed so far. -/
def upNetworksLoop (projectName : String) :
    List (String × NetworkConfig) → Runtime →
      Except String Unit × List (String × NetworkConfig) × Runtime ×
        List ApiCall × List ProgressEvent
  | [], rt => (.ok (), [], rt, [], [])
  | (k, network) :: rest, rt =>
    let entry := upNetworkEntry projectName k network
    let res := ensureNetwork rt (upNetworkConfig projectName k network)
    match res.result with
    | .error e => (.error e, (k, entry) :: rest, res.runtime, res.calls, res.events)
    | .ok _ =>
      let next := upNetworksLoop projectName rest res.runtime
      (next.1, (k, entry) :: next.2.1, next.2.2.1,
       res.calls ++ next.2.2.2.1, res.events ++ next.2.2.2.2)

/-- The volume loop of `Up`, analogous to the network loop. -/
def upVolumesLoop (projectName : String) :
    List (String × VolumeConfig) → Runtime →
      Except String Unit × List (String × VolumeConfig) × Runtime ×
        List ApiCall × List ProgressEvent
  | [], rt => (.ok (), [], rt, [], [])
  | (k, volume) :: rest, rt =>
    let entry := upVolumeEntry projectName k volume
    let res := ensureVolume rt (upVolumeConfig projectName k volume)
    match res.result with
    | .error e => (.error e, (k, entry) :: rest, res.runtime, res.calls, res.events)
    | .ok _ =>
      let next := upVolumesLoop projectName rest res.runtime
      (next.1, (k, entry) :: next.2.1, next.2.2.1,
       res.calls ++ next.2.2.2.1, res.events ++ next.2.2.2.2)

/-- Result of `Up`: outcome, the project as left by the call (the Go code
mutates the supplied project through its pointer), the engine state, calls
and events. -/
structure UpResult where
  result : Except String Unit
  project : Project
  runtime : Runtime
  calls : List ApiCall := []
  events : List ProgressEvent := []
deriving DecidableEq, Repr

/-- Embedding of `Up`: ensure images, then networks, then volumes, then the
services in dependency order, returning on the first error. -/
def Up (rt : Runtime) (p : Project) : UpResult :=
  match ensureImagesExists rt p with
  | .error e => { result := .error e, project := p, runtime := rt }
  | .ok _ =>
    let netRes := upNetworksLoop p.Name p.Networks rt
    let p1 := { p with Networks := netRes.2.1 }
    match netRes.1 with
    | .error e =>
      { result := .error e, project := p1, runtime := netRes.2.2.1,
        calls := netRes.2.2.2.1, events := netRes.2.2.2.2 }
    | .ok _ =>
      let volRes := upVolumesLoop p.Name p.Volumes netRes.2.2.1
      let p2 := { p1 with Volumes := volRes.2.1 }
      match volRes.1 with
      | .error e =>
        { result := .error e, project := p2, runtime := volRes.2.2.1,
          calls := netRes.2.2.2.1 ++ volRes.2.2.2.1,
          events := netRes.2.2.2.2 ++ volRes.2.2.2.2 }
      | .ok _ =>
        let svcRes := inDependencyOrder volRes.2.2.1 p2
        { result := svcRes.1, project := p2, runtime := svcRes.2,
          calls := netRes.2.2.2.1 ++ volRes.2.2.2.1,
          events := netRes.2.2.2.2 ++ volRes.2.2.2.2 }

/-- Statement of claim C5 as written: a single `Up` pass leaves the
project's network and volume definitions exactly as the caller passed them
in. -/
def upImmutableClaim : Prop :=
  ∀ (rt : Runtime) (p : Project),
    (Up rt p).project.Networks = p.Networks ∧ (Up rt p).project.Volumes = p.Volumes

/-- Statement of claim C6 as written: on the non-re-loadable marker `-`, the
decoder yields a minimal project with the requested name and exactly one
Service entry per distinct service label observed. -/
def minimalProjectClaim : Prop :=
  ∀ (rt : Runtime) (projectName : String) (loader : ProjectOptions → Except String Project),
    projectFilterContainers rt projectName ≠ [] →
    (loadProjectOptionsFromLabels
        ((projectFilterContainers rt projectName).headD {})).ConfigPaths.headD "" = "-" →
    ∃ proj, projectFromContainerLabels rt projectName loader = .ok (some proj)
      ∧ proj.Name = projectName
      ∧ (proj.Services.map ServiceConfig.Name).Nodup
      ∧ (∀ n, n ∈ proj.Services.map ServiceConfig.Name ↔
          n ∈ (projectFilterContainers rt projectName).map fun c =>
            (goLookup c.Labels serviceLabel).getD "")

/-! ## Sample data for the runtime claims -/

/-- An external network absent from the runtime (C3 witness input). -/
def extNet : NetworkConfig :=
  { Name := "ext-net", External := true }

/-- An external volume absent from the runtime (C3 failing input). -/
def extVolume : VolumeConfig :=
  { Name := "db-data", External := true }

/-- A non-external volume absent from the runtime (C4 failing input). -/
def dataVolume : VolumeConfig :=
  { Name := "data", Labels := some [(volumeLabel, "data"), (projectLabel, "demo")] }

/-- A container of an unrelated project (C8 witness input). -/
def otherContainer : MobyContainer :=
  { ID := "x", Labels := [(projectLabel, "other")] }

/-- A loader that is never consulted in the scenarios below. -/
def noLoader : ProjectOptions → Except String Project :=
  fun _ => .error "no loader"

/-- First replica container of service `web` with the `-` source marker
(C6). -/
def replicaA : MobyContainer :=
  { ID := "r1", Labels := [(projectLabel, "demo"), (serviceLabel, "web"),
                           (configFilesLabel, "-")] }

/-- Second replica container of service `web` (C6). -/
def replicaB : MobyContainer :=
  { ID := "r2", Labels := [(projectLabel, "demo"), (serviceLabel, "web"),
                           (configFilesLabel, "-")] }

/-- Runtime holding the two replicas of service `web` (C6). -/
def replicaRuntime : Runtime :=
  { containers := [replicaA, replicaB] }

/-- The minimal project the decoder actually builds for `replicaRuntime`:
one (duplicate) Service entry per replica container. -/
def replicaProject : Project :=
  { Name := "demo", Services := [{ Name := "web" }, { Name := "web" }] }

/-- Project with one default network, for the C5 counterexample and
witness. -/
def upProject : Project :=
  { Name := "demo", Networks := [("default", { Name := "default" })] }

/-- A running replica of service `web` (C10 witness input). -/
def psWeb : MobyContainer :=
  { ID := "c1", Labels := [(projectLabel, "demo"), (serviceLabel, "web")], State := "running" }

/-- An exited replica of service `db` (C10 witness input). -/
def psDb : MobyContainer :=
  { ID := "c2", Labels := [(projectLabel, "demo"), (serviceLabel, "db")], State := "exited" }

/-- A container carrying no labels at all (C10 witness input). -/
def noLabelContainer : MobyContainer :=
  { ID := "c3" }

/-! ## Order lemmas for the alphabetical sort -/

theorem charListLe_total : ∀ as bs : List Char, charListLe as bs = true ∨ charListLe bs as = true
  | [], _ => Or.inl rfl
  | _ :: _, [] => Or.inr rfl
  | a :: as, b :: bs => by
    by_cases h : a = b
    · subst h
      simpa [charListLe] using charListLe_total as bs
    · rcases lt_or_gt_of_ne h with hlt | hgt
      · exact Or.inl (by simp [charListLe, h, hlt])
      · exact Or.inr (by simp [charListLe, Ne.symm h, hgt])

theorem charListLe_trans : ∀ as bs cs : List Char,
    charListLe as bs = true → charListLe bs cs = true → charListLe as cs = true
  | [], _, _, _, _ => rfl
  | _ :: _, [], _, h1, _ => by simp [charListLe] at h1
  | _ :: _, _ :: _, [], _, h2 => by simp [charListLe] at h2
  | a :: as, b :: bs, c :: cs, h1, h2 => by
    by_cases hab : a = b
    · subst hab
      by_cases hac : a = c
      · subst hac
        simp only [charListLe, if_pos rfl] at h1 h2 ⊢
        exact charListLe_trans as bs cs h1 h2
      · simp only [charListLe, if_neg hac] at h2 ⊢
        exact h2
    · have h1' : a < b := by simpa [charListLe, hab] using h1
      by_cases hbc : b = c
      · subst hbc
        simp [charListLe, hab, h1']
      · have h2' : b < c := by simpa [charListLe, hbc] using h2
        have hac : a < c := lt_trans h1' h2'
        simp [charListLe, ne_of_lt hac, hac]

theorem charListLe_antisymm : ∀ as bs : List Char,
    charListLe as bs = true → charListLe bs as = true → as = bs
  | [], [], _, _ => rfl
  | [], _ :: _, _, h2 => by simp [charListLe] at h2
  | _ :: _, [], h1, _ => by simp [charListLe] at h1
  | a :: as, b :: bs, h1, h2 => by
    by_cases h : a = b
    · subst h
      simp only [charListLe, if_pos rfl] at h1 h2
      rw [charListLe_antisymm as bs h1 h2]
    · have h1' : a < b := by simpa [charListLe, h] using h1
      have h2' : b < a := by simpa [charListLe, Ne.symm h] using h2
      exact absurd h2' (lt_asymm h1')

instance : IsTotal String strLe :=
  ⟨fun a b => charListLe_total a.data b.data⟩

instance : IsTrans String strLe :=
  ⟨fun a b c => charListLe_trans a.data b.data c.data⟩

instance : IsAntisymm String strLe :=
  ⟨fun a b h1 h2 => by
    cases a; cases b
    exact congrArg String.mk (charListLe_antisymm _ _ h1 h2)⟩

theorem sortStrings_sorted (l : List String) : (sortStrings l).Sorted strLe :=
  List.sorted_insertionSort strLe l

theorem sortStrings_perm (l : List String) : List.Perm (sortStrings l) l :=
  List.perm_insertionSort strLe l

theorem sortStrings_eq_of_mem_iff {l₁ l₂ : List String} (h₁ : l₁.Nodup) (h₂ : l₂.Nodup)
    (h : ∀ s, s ∈ l₁ ↔ s ∈ l₂) : sortStrings l₁ = sortStrings l₂ := by
  refine List.eq_of_perm_of_sorted ?_ (sortStrings_sorted l₁) (sortStrings_sorted l₂)
  exact (sortStrings_perm l₁).trans
    (((List.perm_ext_iff_of_nodup h₁ h₂).2 h).trans (sortStrings_perm l₂).symm)

/-! ## Association-list (Go map) lemmas -/

theorem goLookup_goInsert_self {α : Type} (m : List (String × α)) (k : String) (v : α) :
    goLookup (goInsert m k v) k = some v := by
  induction m with
  | nil => simp [goInsert, goLookup]
  | cons p rest ih =>
    obtain ⟨k', v'⟩ := p
    by_cases h : k' = k
    · simp [goInsert, goLookup, h]
    · simp [goInsert, goLookup, h, ih]

theorem goLookup_goInsert_ne {α : Type} (m : List (String × α)) {k s : String} (v : α)
    (h : k ≠ s) : goLookup (goInsert m k v) s = goLookup m s := by
  induction m with
  | nil => simp [goInsert, goLookup, h]
  | cons p rest ih =>
    obtain ⟨k', v'⟩ := p
    by_cases h' : k' = k
    · subst h'
      simp [goInsert, goLookup, h]
    · simp [goInsert, goLookup, h', ih]

/-! ## String-append auxiliary lemmas -/

theorem strAppend_data (a b : String) : (a ++ b).data = a.data ++ b.data := by
  cases a; cases b; rfl

theorem strAppend_assoc (a b c : String) : a ++ b ++ c = a ++ (b ++ c) := by
  cases a; cases b; cases c
  exact congrArg String.mk (List.append_assoc _ _ _)

theorem strAppend_empty (a : String) : a ++ "" = a := by
  cases a; exact congrArg String.mk (List.append_nil _)

theorem strEmpty_append (a : String) : "" ++ a = a := by
  cases a; rfl

theorem strAppend_ne_empty_left (a b : String) (h : a ≠ "") : a ++ b ≠ "" := by
  intro hab
  apply h
  cases a; cases b
  have := congrArg String.data hab
  simp only [strAppend_data] at this
  rcases List.append_eq_nil.mp this with ⟨h1, _⟩
  exact congrArg String.mk h1

/-! ## Correctness of combinedStatus -/

theorem statusEntry_ne_empty (m : List (String × Nat)) (s : String) : statusEntry m s ≠ "" := by
  intro h
  have := congrArg String.data h
  simp only [statusEntry, strAppend_data] at this
  simp at this

theorem commaJoin_cons (x : String) (xs : List String) :
    commaJoin (x :: xs) = x ++ sepList xs := by
  induction xs generalizing x with
  | nil => simp [commaJoin, sepList, strAppend_empty]
  | cons y ys ih =>
    show x ++ ", " ++ commaJoin (y :: ys) = _
    rw [ih, sepList, strAppend_assoc, strAppend_assoc]

theorem renderFold_aux (m : List (String × Nat)) :
    ∀ (ks : List String) (acc : String), acc ≠ "" →
      ks.foldl (combinedStatusRender m) acc = acc ++ sepList (ks.map (statusEntry m))
  | [], acc, _ => by simp [sepList, strAppend_empty]
  | s :: rest, acc, h => by
    simp only [List.foldl_cons, List.map_cons]
    have hstep : combinedStatusRender m acc s = acc ++ (", " ++ statusEntry m s) := by
      simp [combinedStatusRender, statusEntry, h, strAppend_assoc]
    rw [hstep, renderFold_aux m rest _ (strAppend_ne_empty_left _ _ h)]
    rw [sepList, strAppend_assoc, strAppend_assoc]

theorem renderFold_eq (m : List (String × Nat)) (ks : List String) :
    ks.foldl (combinedStatusRender m) "" = commaJoin (ks.map (statusEntry m)) := by
  cases ks with
  | nil => rfl
  | cons s rest =>
    simp only [List.foldl_cons, List.map_cons]
    have hstep : combinedStatusRender m "" s = statusEntry m s := by
      simp [combinedStatusRender, statusEntry, strEmpty_append]
    rw [hstep, renderFold_aux m rest _ (statusEntry_ne_empty m s), commaJoin_cons]

theorem combinedStatusFold_spec :
    ∀ (l : List String) (m : List (String × Nat)) (ks : List String),
      (∀ s, (goLookup m s).isSome = true ↔ s ∈ ks) → ks.Nodup →
      (∀ s, goLookup (List.foldl combinedStatusStep (m, ks) l).1 s =
          if s ∈ ks ∨ s ∈ l then some ((goLookup m s).getD 0 + l.count s) else none)
      ∧ (List.foldl combinedStatusStep (m, ks) l).2.Nodup
      ∧ (∀ s, s ∈ (List.foldl combinedStatusStep (m, ks) l).2 ↔ s ∈ ks ∨ s ∈ l) := by
  intro l
  induction l with
  | nil =>
    intro m ks hinv hnd
    refine ⟨?_, hnd, by simp⟩
    intro s
    by_cases hs : s ∈ ks
    · obtain ⟨n, hn⟩ := Option.isSome_iff_exists.mp ((hinv s).2 hs)
      simp [hn, hs]
    · have : goLookup m s = none := by
        rcases h : goLookup m s with _ | n
        · rfl
        · exact absurd ((hinv s).1 (by simp [h])) hs
      simp [this, hs]
  | cons a l ih =>
    intro m ks hinv hnd
    simp only [List.foldl_cons]
    rcases hma : goLookup m a with _ | nb
    · -- first occurrence of state `a`
      have hna : a ∉ ks := fun hmem => by
        have := (hinv a).2 hmem
        rw [hma] at this
        simp at this
      have hstep : combinedStatusStep (m, ks) a = (goInsert m a 1, ks ++ [a]) := by
        simp [combinedStatusStep, hma]
      rw [hstep]
      have hinv₁ : ∀ s, (goLookup (goInsert m a 1) s).isSome = true ↔ s ∈ ks ++ [a] := by
        intro s
        by_cases hsa : s = a
        · subst hsa
          simp [goLookup_goInsert_self]
        · rw [goLookup_goInsert_ne m 1 (fun h => hsa h.symm)]
          simp [hinv s, hsa]
      have hnd₁ : (ks ++ [a]).Nodup := by
        simp [List.nodup_append, hnd, hna]
      obtain ⟨h1, h2, h3⟩ := ih (goInsert m a 1) (ks ++ [a]) hinv₁ hnd₁
      refine ⟨?_, h2, ?_⟩
      · intro s
        rw [h1 s]
        by_cases hsa : s = a
        · subst hsa
          rw [if_pos (Or.inl (by simp)), if_pos (Or.inr (List.mem_cons_self _ _))]
          simp [goLookup_goInsert_self, hma, Nat.add_comm]
        · rw [goLookup_goInsert_ne m 1 (fun h => hsa h.symm)]
          have hmem : (s ∈ ks ++ [a] ∨ s ∈ l) ↔ (s ∈ ks ∨ s ∈ a :: l) := by
            simp [hsa, or_assoc]
          rw [List.count_cons_of_ne hsa]
          exact if_congr hmem rfl rfl
      · intro s
        rw [h3 s]
        by_cases hsa : s = a
        · subst hsa
          simp
        · simp [hsa, or_assoc]
    · -- state `a` already seen
      have hka : a ∈ ks := (hinv a).1 (by simp [hma])
      have hstep : combinedStatusStep (m, ks) a = (goInsert m a (nb + 1), ks) := by
        simp [combinedStatusStep, hma]
      rw [hstep]
      have hinv₁ : ∀ s, (goLookup (goInsert m a (nb + 1)) s).isSome = true ↔ s ∈ ks := by
        intro s
        by_cases hsa : s = a
        · subst hsa
          simp [goLookup_goInsert_self, hka]
        · rw [goLookup_goInsert_ne m (nb + 1) (fun h => hsa h.symm)]
          exact hinv s
      obtain ⟨h1, h2, h3⟩ := ih (goInsert m a (nb + 1)) ks hinv₁ hnd
      have hcond : ∀ s, (s ∈ ks ∨ s ∈ l) ↔ (s ∈ ks ∨ s ∈ a :: l) := by
        intro s
        by_cases hsa : s = a
        · subst hsa
          simp [hka]
        · simp [hsa]
      refine ⟨?_, h2, ?_⟩
      · intro s
        rw [h1 s]
        by_cases hsa : s = a
        · subst hsa
          rw [if_pos (Or.inl hka), if_pos (Or.inl hka)]
          simp [goLookup_goInsert_self, hma, List.count_cons_self]
          omega
        · rw [goLookup_goInsert_ne m (nb + 1) (fun h => hsa h.symm)]
          rw [List.count_cons_of_ne hsa]
          exact if_congr (hcond s) rfl rfl
      · intro s
        rw [h3 s]
        exact hcond s

theorem combinedStatus_base (l : List String) :
    (List.foldl combinedStatusStep ([], []) l).2.Nodup
    ∧ (∀ s, s ∈ (List.foldl combinedStatusStep ([], []) l).2 ↔ s ∈ l)
    ∧ (∀ s, s ∈ l → goLookup (List.foldl combinedStatusStep ([], []) l).1 s = some (l.count s)) := by
  obtain ⟨h1, h2, h3⟩ := combinedStatusFold_spec l [] []
    (by intro s; simp [goLookup]) List.nodup_nil
  refine ⟨h2, fun s => (h3 s).trans (by simp), fun s hs => ?_⟩
  rw [h1 s, if_pos (Or.inr hs)]
  simp [goLookup]

theorem combinedStatus_eq_spec (l : List String) : combinedStatus l = combinedStatusSpec l := by
  obtain ⟨hnd, hmem, hcnt⟩ := combinedStatus_base l
  simp only [combinedStatus, combinedStatusSpec]
  rw [renderFold_eq]
  have hsort : sortStrings (List.foldl combinedStatusStep ([], []) l).2 = sortStrings l.dedup :=
    sortStrings_eq_of_mem_iff hnd l.nodup_dedup
      (fun s => (hmem s).trans (List.mem_dedup).symm)
  rw [hsort]
  congr 1
  apply List.map_congr_left
  intro s hs
  have hsl : s ∈ l := by
    have := ((sortStrings_perm l.dedup).mem_iff).1 hs
    exact List.mem_dedup.1 this
  simp [statusEntry, hcnt s hsl]

/-- C7: `combinedStatus` applied to any list of container states returns the
deterministic, alphabetically sorted, comma-joined `state(count)` summary of
that list; in particular on `["running", "running", "exited", "running"]` it
returns `"exited(1), running(3)"`. -/
theorem combinedStatus_correct :
    (∀ statuses, combinedStatus statuses = combinedStatusSpec statuses) ∧
    combinedStatus ["running", "running", "exited", "running"] = "exited(1), running(3)" :=
  ⟨combinedStatus_eq_spec, by decide⟩

/-! ## Correctness of the grouping used by Ps and List -/

theorem groupLoop_spec (labelName : String) :
    ∀ (cs : List MobyContainer) (m : List (String × List MobyContainer)) (keys : List String),
      (∀ s, (goLookup m s).isSome = true ↔ s ∈ keys) → keys.Nodup →
      (∀ c ∈ cs, (goLookup c.Labels labelName).isSome = true) →
      ∃ m' keys', groupLoop labelName cs (m, keys) = .ok (m', keys')
        ∧ keys'.Nodup
        ∧ (∀ s, s ∈ keys' ↔ s ∈ keys ∨
            s ∈ cs.map fun c => (goLookup c.Labels labelName).getD "")
  | [], m, keys, _, hnd, _ => ⟨m, keys, rfl, hnd, by simp⟩
  | c :: rest, m, keys, hinv, hnd, hall => by
    obtain ⟨label, hlabel⟩ := Option.isSome_iff_exists.mp (hall c (List.mem_cons_self c rest))
    have hrest : ∀ x ∈ rest, (goLookup x.Labels labelName).isSome = true :=
      fun x hx => hall x (List.mem_cons_of_mem c hx)
    rcases hml : goLookup m label with _ | cs'
    · have hnl : label ∉ keys := fun hmem => by
        have := (hinv label).2 hmem
        rw [hml] at this
        simp at this
      have hinv₁ : ∀ s, (goLookup (goInsert m label [c]) s).isSome = true ↔
          s ∈ keys ++ [label] := by
        intro s
        by_cases hsl : s = label
        · subst hsl
          simp [goLookup_goInsert_self]
        · rw [goLookup_goInsert_ne m _ (fun h => hsl h.symm)]
          simp [hinv s, hsl]
      have hnd₁ : (keys ++ [label]).Nodup := by simp [List.nodup_append, hnd, hnl]
      obtain ⟨m', keys', hok, hnd', hmem'⟩ := groupLoop_spec labelName rest _ _ hinv₁ hnd₁ hrest
      refine ⟨m', keys', ?_, hnd', ?_⟩
      · simp only [groupLoop, hlabel, hml]
        exact hok
      · intro s
        rw [hmem' s]
        simp [hlabel, or_assoc]
    · have hkl : label ∈ keys := (hinv label).1 (by simp [hml])
      have hinv₁ : ∀ s, (goLookup (goInsert m label (cs' ++ [c])) s).isSome = true ↔
          s ∈ keys := by
        intro s
        by_cases hsl : s = label
        · subst hsl
          simp [goLookup_goInsert_self, hkl]
        · rw [goLookup_goInsert_ne m _ (fun h => hsl h.symm)]
          exact hinv s
      obtain ⟨m', keys', hok, hnd', hmem'⟩ := groupLoop_spec labelName rest _ _ hinv₁ hnd hrest
      refine ⟨m', keys', ?_, hnd', ?_⟩
      · simp only [groupLoop, hlabel, hml]
        exact hok
      · intro s
        rw [hmem' s]
        simp only [List.map_cons, List.mem_cons, hlabel, Option.getD_some]
        by_cases hsl : s = label
        · subst hsl
          simp [hkl]
        · simp [hsl]

theorem groupLoop_error (labelName : String) :
    ∀ (cs : List MobyContainer) (acc : List (String × List MobyContainer) × List String),
      (∃ c ∈ cs, goLookup c.Labels labelName = none) →
      ∃ c ∈ cs, goLookup c.Labels labelName = none ∧
        groupLoop labelName cs acc = .error (noLabelMessage labelName c.ID)
  | [], _, h => by simp at h
  | c :: rest, acc, h => by
    rcases hc : goLookup c.Labels labelName with _ | label
    · exact ⟨c, List.mem_cons_self c rest, hc, by simp [groupLoop, hc]⟩
    · have hr : ∃ x ∈ rest, goLookup x.Labels labelName = none := by
        rcases h with ⟨x, hx, hxn⟩
        rcases List.mem_cons.mp hx with rfl | hx'
        · rw [hc] at hxn
          exact absurd hxn (by simp)
        · exact ⟨x, hx', hxn⟩
      rcases hal : goLookup acc.1 label with _ | cs'
      · obtain ⟨x, hx, hxn, herr⟩ :=
          groupLoop_error labelName rest (goInsert acc.1 label [c], acc.2 ++ [label]) hr
        refine ⟨x, List.mem_cons_of_mem c hx, hxn, ?_⟩
        simp only [groupLoop, hc, hal]
        exact herr
      · obtain ⟨x, hx, hxn, herr⟩ :=
          groupLoop_error labelName rest (goInsert acc.1 label (cs' ++ [c]), acc.2) hr
        refine ⟨x, List.mem_cons_of_mem c hx, hxn, ?_⟩
        simp only [groupLoop, hc, hal]
        exact herr

theorem groupContainerByLabel_ok (containers : List MobyContainer) (labelName : String)
    (hall : ∀ c ∈ containers, (goLookup c.Labels labelName).isSome = true) :
    ∃ byLabel keys, groupContainerByLabel containers labelName = .ok (byLabel, keys) ∧
      keys = sortStrings
        ((containers.map fun c => (goLookup c.Labels labelName).getD "").dedup) := by
  obtain ⟨m', keys', hok, hnd', hmem'⟩ :=
    groupLoop_spec labelName containers [] [] (by simp [goLookup]) List.nodup_nil hall
  refine ⟨m', sortStrings keys', ?_, ?_⟩
  · simp [groupContainerByLabel, hok, Except.map]
  · refine sortStrings_eq_of_mem_iff hnd' (List.nodup_dedup _) fun s => ?_
    rw [hmem' s]
    simp [List.mem_dedup]

/-- C10: if any container in the input lacks the grouping label, `Ps`
(grouping by the service label) and `List` (grouping by the project label)
return an error naming the label and the offending container's ID, with no
partial result; otherwise the returned entries are keyed by the
alphabetically sorted distinct label values. -/
theorem groupByLabel_correct (cs : List MobyContainer) :
    ((∃ c ∈ cs, goLookup c.Labels serviceLabel = none) →
      ∃ c ∈ cs, goLookup c.Labels serviceLabel = none ∧
        containersToServiceStatus cs = .error (noLabelMessage serviceLabel c.ID))
    ∧ ((∀ c ∈ cs, (goLookup c.Labels serviceLabel).isSome = true) →
      ∃ sts, containersToServiceStatus cs = .ok sts ∧
        sts.map ServiceStatus.ID =
          sortStrings ((cs.map fun c => (goLookup c.Labels serviceLabel).getD "").dedup))
    ∧ ((∃ c ∈ cs, goLookup c.Labels projectLabel = none) →
      ∃ c ∈ cs, goLookup c.Labels projectLabel = none ∧
        containersToStacks cs = .error (noLabelMessage projectLabel c.ID))
    ∧ ((∀ c ∈ cs, (goLookup c.Labels projectLabel).isSome = true) →
      ∃ sks, containersToStacks cs = .ok sks ∧
        sks.map Stack.ID =
          sortStrings ((cs.map fun c => (goLookup c.Labels projectLabel).getD "").dedup)) := by
  refine ⟨?_, ?_, ?_, ?_⟩
  · intro h
    obtain ⟨c, hc, hnone, herr⟩ := groupLoop_error serviceLabel cs ([], []) h
    exact ⟨c, hc, hnone, by
      simp [containersToServiceStatus, groupContainerByLabel, herr, Except.map]⟩
  · intro hall
    obtain ⟨byLabel, keys, hok, hkeys⟩ := groupContainerByLabel_ok cs serviceLabel hall
    refine ⟨keys.map fun service =>
        { ID := service, Name := service,
          Desired := ((goLookup byLabel service).getD []).length,
          Replicas := (((goLookup byLabel service).getD []).filter fun c =>
            c.State == "running").length }, ?_, ?_⟩
    · simp [containersToServiceStatus, hok]
    · rw [List.map_map, hkeys]
      exact List.map_id _
  · intro h
    obtain ⟨c, hc, hnone, herr⟩ := groupLoop_error projectLabel cs ([], []) h
    exact ⟨c, hc, hnone, by
      simp [containersToStacks, groupContainerByLabel, herr, Except.map]⟩
  · intro hall
    obtain ⟨byLabel, keys, hok, hkeys⟩ := groupContainerByLabel_ok cs projectLabel hall
    refine ⟨keys.map fun project =>
        { ID := project, Name := project,
          Status := combinedStatus (containerToState ((goLookup byLabel project).getD [])) }, ?_, ?_⟩
    · simp [containersToStacks, hok]
    · rw [List.map_map, hkeys]
      exact List.map_id _

/-! ## Mount inheritance (C1) -/

theorem contains_iff (l : List String) (s : String) : contains l s = true ↔ s ∈ l := by
  simp [contains]

/-- C1 (counterexample): the claim as stated is false on the code: a
non-tmpfs mount present only on the prior container (target `/old`) is
inherited into the rebuilt mount list even though the new definition does
not declare that target, so such mounts are not dropped. -/
theorem mountInheritClaim_false : ¬ mountInheritClaim := by
  intro h
  have h3 := (h exProject noVolumeService oldOnlyContainer).2.2.1
  exact h3
    { type := "volume", Name := "V", Source := "/var/lib/V", Destination := "/old", RW := true }
    (by decide) (by decide)
    { type := "volume", Source := "V", Target := "/old", ReadOnly := false }
    (by decide) (by decide)

/-- C1 (amended): the rebuilt mount list inherits every non-tmpfs mount of
the prior container (source preserved, the volume name for volume mounts),
whether or not the new definition declares its target; every rebuilt mount
originates either from a non-tmpfs prior mount (so tmpfs mounts are never
inherited) or from a declared volume; a declared volume whose target was not
inherited is added; and on the spec's example the rebuilt list preserves
`/data` sourced from `V`, drops `/tmp`, and adds `/cache`. -/
theorem buildContainerMountOptions_correct (p : Project) (s : ServiceConfig) (c : MobyContainer) :
    (∀ m ∈ c.Mounts, m.type ≠ "tmpfs" →
      convertInheritedMount m ∈ buildContainerMountOptions p s (some c))
    ∧ (∀ r ∈ buildContainerMountOptions p s (some c),
        (∃ m ∈ c.Mounts, m.type ≠ "tmpfs" ∧ r = convertInheritedMount m) ∨
        (∃ v ∈ s.Volumes, r = convertServiceVolume p v))
    ∧ (∀ v ∈ s.Volumes, v.Target ∉ inheritedTargets c →
        convertServiceVolume p v ∈ buildContainerMountOptions p s (some c))
    ∧ ((∃ r ∈ buildContainerMountOptions exProject exService (some exContainer),
          r.Target = "/data" ∧ r.Source = "V")
       ∧ (∀ r ∈ buildContainerMountOptions exProject exService (some exContainer),
          r.Target ≠ "/tmp")
       ∧ (∃ r ∈ buildContainerMountOptions exProject exService (some exContainer),
          r.Target = "/cache")) := by
  refine ⟨?_, ?_, ?_, by decide⟩
  · intro m hm hne
    simp only [buildContainerMountOptions]
    apply List.mem_append_left
    exact List.mem_map_of_mem _ (List.mem_filter.2 ⟨hm, by simp [hne]⟩)
  · intro r hr
    simp only [buildContainerMountOptions] at hr
    rcases List.mem_append.1 hr with hl | hrt
    · obtain ⟨m, hm, rfl⟩ := List.mem_map.1 hl
      obtain ⟨hmem, hp⟩ := List.mem_filter.1 hm
      exact Or.inl ⟨m, hmem, by simpa using hp, rfl⟩
    · obtain ⟨v, hv, rfl⟩ := List.mem_map.1 hrt
      obtain ⟨hmem, _⟩ := List.mem_filter.1 hv
      exact Or.inr ⟨v, hmem, rfl⟩
  · intro v hv hni
    simp only [buildContainerMountOptions]
    apply List.mem_append_right
    apply List.mem_map_of_mem
    refine List.mem_filter.2 ⟨hv, ?_⟩
    cases hcon : contains (inheritedTargets c) v.Target with
    | false => rfl
    | true => exact absurd ((contains_iff _ _).1 hcon) hni

/-- Witness for C1 at the spec example's concrete inputs: the `/data` mount
of the prior container is inherited, and the newly declared `/cache` bind
mount is added. -/
theorem buildContainerMountOptions_correct_witness :
    convertInheritedMount exDataMount ∈
      buildContainerMountOptions exProject exService (some exContainer) ∧
    convertServiceVolume exProject exCacheVolume ∈
      buildContainerMountOptions exProject exService (some exContainer) :=
  ⟨(buildContainerMountOptions_correct exProject exService exContainer).1 exDataMount
      (by decide) (by decide),
   (buildContainerMountOptions_correct exProject exService exContainer).2.2.1 exCacheVolume
      (by decide) (by decide)⟩

/-! ## Label codec round trip (C2) -/

theorem stringsSplit_join (l : List String) (hne : l ≠ []) (hnc : ∀ f ∈ l, ',' ∉ f.data) :
    stringsSplitComma (stringsJoinComma l) = l := by
  show ((String.mk (List.intercalate [','] (l.map String.toList))).data.splitOn ',').map
      (fun cs => String.mk cs) = l
  have hx : ∀ m ∈ l.map String.toList, ',' ∉ m := by
    intro m hm
    obtain ⟨f, hf, rfl⟩ := List.mem_map.1 hm
    exact hnc f hf
  have hne' : l.map String.toList ≠ [] := by simpa using hne
  rw [show (String.mk (List.intercalate [','] (l.map String.toList))).data =
        List.intercalate [','] (l.map String.toList) from rfl,
      List.splitOn_intercalate (l.map String.toList) ',' hx hne', List.map_map]
  exact List.map_id l

/-- C2 (counterexample): the round trip is lossy: for a project whose single
source file is recorded as `/work/docker-compose.yml`, decoding the encoded
labels returns only the base name `docker-compose.yml` in the config path
list, which differs from the original source file list. -/
theorem labelRoundTripClaim_false : ¬ labelRoundTripClaim := by
  intro h
  have hinst := h rtProject rtService 1 none rtOpts rfl
  exact absurd hinst (by decide)

/-- C2 (amended): decoding the labels encoded by `getContainerCreateOptions`
always recovers the project name and working directory exactly, and recovers
the base names of the source files: the decoded config path list is the base
name of each comma-separated recorded entry, which equals the base names of
the original source file list whenever that list is non-empty and free of
commas. -/
theorem labelRoundTrip_correct (p : Project) (s : ServiceConfig) (number : Nat)
    (inherit : Option MobyContainer) (opts : CreateOptions)
    (h : getContainerCreateOptions p s number inherit = .ok (.ok opts)) :
    (loadProjectOptionsFromLabels { Labels := opts.Config.Labels }).Name = p.Name
    ∧ (loadProjectOptionsFromLabels { Labels := opts.Config.Labels }).WorkingDir = p.WorkingDir
    ∧ (loadProjectOptionsFromLabels { Labels := opts.Config.Labels }).ConfigPaths =
        (stringsSplitComma (stringsJoinComma p.ComposeFiles)).map filepathBase
    ∧ (p.ComposeFiles ≠ [] → (∀ f ∈ p.ComposeFiles, ',' ∉ f.data) →
        (loadProjectOptionsFromLabels { Labels := opts.Config.Labels }).ConfigPaths =
          p.ComposeFiles.map filepathBase) := by
  simp only [getContainerCreateOptions, jsonHash] at h
  rcases hnm : getNetworkMode p s with nm | msg
  · rw [hnm] at h
    simp only [GoPanic.ok.injEq, Except.ok.injEq] at h
    subst h
    refine ⟨rfl, rfl, rfl, fun hne hnc => ?_⟩
    show (stringsSplitComma (stringsJoinComma p.ComposeFiles)).map filepathBase = _
    rw [stringsSplit_join p.ComposeFiles hne hnc]
  · rw [hnm] at h
    exact absurd h (by simp)

/-- Witness for C2 at a concrete project whose source file is recorded as a
bare file name: the decoded options carry the same name, working directory
and file list. -/
theorem labelRoundTrip_correct_witness :
    (loadProjectOptionsFromLabels { Labels := wOpts.Config.Labels }).Name = wProject.Name
    ∧ (loadProjectOptionsFromLabels { Labels := wOpts.Config.Labels }).WorkingDir =
        wProject.WorkingDir
    ∧ (loadProjectOptionsFromLabels { Labels := wOpts.Config.Labels }).ConfigPaths =
        wProject.ComposeFiles.map filepathBase := by
  have h := labelRoundTrip_correct wProject rtService 1 none wOpts rfl
  exact ⟨h.1, h.2.1, h.2.2.2 (by decide) (by decide)⟩

/-! ## Unimplemented network modes (C9) -/

/-- C9: for every service whose network mode begins with `service:` or
`container:`, `getNetworkMode` panics with "Not yet implemented", and
computing the container create options therefore neither returns a value nor
an error — the panic propagates. -/
theorem getNetworkMode_unimplemented (p : Project) (s : ServiceConfig) (number : Nat)
    (inherit : Option MobyContainer)
    (h : stringHasPrefix s.NetworkMode "service:" = true ∨
      stringHasPrefix s.NetworkMode "container:" = true) :
    getNetworkMode p s = .panics "Not yet implemented" ∧
    getContainerCreateOptions p s number inherit = .panics "Not yet implemented" := by
  have hne : ¬ s.NetworkMode = "" := by
    intro heq
    rw [heq] at h
    rcases h with h | h <;> exact absurd h (by decide)
  have hmode : getNetworkMode p s = .panics "Not yet implemented" := by
    rcases h with hs | hc
    · simp [getNetworkMode, hne, hs]
    · cases hsv : stringHasPrefix s.NetworkMode "service:" with
      | true => simp [getNetworkMode, hne, hsv]
      | false => simp [getNetworkMode, hne, hsv, hc]
  refine ⟨hmode, ?_⟩
  simp [getContainerCreateOptions, jsonHash, hmode]

/-- Witness for C9 at a concrete service with `network_mode: service:db`. -/
theorem getNetworkMode_unimplemented_witness :
    getNetworkMode rtProject svcModeService = .panics "Not yet implemented" ∧
    getContainerCreateOptions rtProject svcModeService 1 none =
      .panics "Not yet implemented" :=
  getNetworkMode_unimplemented rtProject svcModeService 1 none (Or.inl (by decide))

/-! ## Resource ensure semantics and the External flag (C3, C4) -/

/-- C3: `ensureNetwork` honours the External flag — an absent external
network fails with the external-missing error, with no engine call and no
state change; `ensureVolume` does not — at the failing input (absent volume
`db-data` marked External) the code issues a create call, adds the volume to
the runtime, and returns the inspect not-found error rather than an
external-missing error. -/
theorem ensureExternal_behavior :
    (∀ (rt : Runtime) (n : NetworkConfig),
      (rt.networks.any fun x => x.Name == n.Name) = false → n.External = true →
      ensureNetwork rt n =
        { result := .error ("network " ++ n.Name ++
            " declared as external, but could not be found"),
          runtime := rt })
    ∧ (ensureVolume {} extVolume).calls = [.volumeCreate { Name := "db-data" }]
    ∧ (ensureVolume {} extVolume).runtime.volumes = [{ Name := "db-data" }]
    ∧ (ensureVolume {} extVolume).result = .error (volumeNotFoundError "db-data") := by
  refine ⟨?_, by decide, by decide, by decide⟩
  intro rt n habs hext
  simp [ensureNetwork, habs, hext]

/-- Witness for C3's network half at a concrete absent external network. -/
theorem ensureExternal_behavior_witness :
    ensureNetwork {} extNet =
      { result := .error ("network " ++ extNet.Name ++
          " declared as external, but could not be found"),
        runtime := {} } :=
  ensureExternal_behavior.1 {} extNet (by decide) (by decide)

/-- C4 (code evaluation at the failing input): `ensureVolume` on an absent,
non-external volume creates it with the composed label set and emits the
Creating→Created transition, but — against the claim — returns the stale
inspect not-found error instead of success. -/
theorem ensureVolume_created_but_errors :
    (ensureVolume {} dataVolume).calls =
      [.volumeCreate { Labels := [(volumeLabel, "data"), (projectLabel, "demo")],
                       Name := "data" }]
    ∧ (ensureVolume {} dataVolume).runtime.volumes =
        [{ Name := "data", Labels := [(volumeLabel, "data"), (projectLabel, "demo")] }]
    ∧ (ensureVolume {} dataVolume).events =
        [creatingEvent "Volume \"data\"", createdEvent "Volume \"data\""]
    ∧ (ensureVolume {} dataVolume).result = .error (volumeNotFoundError "data") :=
  ⟨by decide, by decide, by decide, by decide⟩

/-! ## Down with no matching containers (C8) -/

/-- C8: when no containers carry the project-identity label equal to the
requested name, `Down` returns success, leaves the engine state unchanged,
and issues no stop, remove, or network-removal calls (and no events). -/
theorem down_no_containers (rt : Runtime) (projectName : String)
    (loader : ProjectOptions → Except String Project)
    (h : projectFilterContainers rt projectName = []) :
    Down rt projectName loader = { result := .ok (), runtime := rt } := by
  simp [Down, projectFromContainerLabels, h]

/-- Witness for C8 at a runtime whose only container belongs to another
project. -/
theorem down_no_containers_witness :
    Down { containers := [otherContainer] } "demo" noLoader =
      { result := .ok (), runtime := { containers := [otherContainer] } } :=
  down_no_containers { containers := [otherContainer] } "demo" noLoader (by decide)

/-! ## Minimal project reconstruction (C6) -/

/-- C6 (counterexample): with two replica containers of the same service
`web` (source marker `-`), the decoder builds a project with two duplicate
Service entries, so the claim's "exactly one Service entry per distinct
service label" fails. -/
theorem minimalProjectClaim_false : ¬ minimalProjectClaim := by
  intro h
  obtain ⟨proj, hok, -, hnd, -⟩ := h replicaRuntime "demo" noLoader (by decide) (by decide)
  rw [show projectFromContainerLabels replicaRuntime "demo" noLoader =
      .ok (some replicaProject) from rfl] at hok
  simp only [Except.ok.injEq, Option.some.injEq] at hok
  rw [← hok] at hnd
  exact absurd hnd (by decide)

/-- C6 (amended): when the recorded source marker is `-`, the decoder builds
a minimal project containing only the requested project name and one Service
entry per matching container, named by that container's service label — so
a service with several replicas yields duplicate entries. -/
theorem projectFromContainerLabels_minimal (rt : Runtime) (projectName : String)
    (loader : ProjectOptions → Except String Project)
    (hne : projectFilterContainers rt projectName ≠ [])
    (hdash : (loadProjectOptionsFromLabels
        ((projectFilterContainers rt projectName).headD {})).ConfigPaths.headD "" = "-") :
    projectFromContainerLabels rt projectName loader =
      .ok (some { Name := projectName,
                  Services := (projectFilterContainers rt projectName).map fun c =>
                    { Name := (goLookup c.Labels serviceLabel).getD "" } }) := by
  rcases hcs : projectFilterContainers rt projectName with _ | ⟨c0, rest⟩
  · exact absurd hcs hne
  · rw [hcs] at hdash
    have hdash' : (loadProjectOptionsFromLabels c0).ConfigPaths.head?.getD "" = "-" := by
      simpa using hdash
    simp [projectFromContainerLabels, hcs, hdash']

/-- Witness for C6 at the two-replica runtime. -/
theorem projectFromContainerLabels_minimal_witness :
    projectFromContainerLabels replicaRuntime "demo" noLoader =
      .ok (some { Name := "demo",
                  Services := (projectFilterContainers replicaRuntime "demo").map fun c =>
                    { Name := (goLookup c.Labels serviceLabel).getD "" } }) :=
  projectFromContainerLabels_minimal replicaRuntime "demo" noLoader (by decide) (by decide)

/-! ## Up mutates the project (C5) -/

theorem upNetworksLoop_ok (projectName : String) :
    ∀ (entries : List (String × NetworkConfig)) (rt : Runtime),
      (upNetworksLoop projectName entries rt).1 = .ok () →
      (upNetworksLoop projectName entries rt).2.1 =
        entries.map fun kv => (kv.1, upNetworkEntry projectName kv.1 kv.2)
  | [], _, _ => rfl
  | (k, network) :: rest, rt, h => by
    cases hr : (ensureNetwork rt (upNetworkConfig projectName k network)).result with
    | error e =>
      simp only [upNetworksLoop, hr] at h
      exact absurd h (by simp)
    | ok u =>
      simp only [upNetworksLoop, hr] at h ⊢
      simp only [List.map_cons]
      exact congrArg (List.cons (k, upNetworkEntry projectName k network))
        (upNetworksLoop_ok projectName rest _ h)

theorem upVolumesLoop_ok (projectName : String) :
    ∀ (entries : List (String × VolumeConfig)) (rt : Runtime),
      (upVolumesLoop projectName entries rt).1 = .ok () →
      (upVolumesLoop projectName entries rt).2.1 =
        entries.map fun kv => (kv.1, upVolumeEntry projectName kv.1 kv.2)
  | [], _, _ => rfl
  | (k, volume) :: rest, rt, h => by
    cases hr : (ensureVolume rt (upVolumeConfig projectName k volume)).result with
    | error e =>
      simp only [upVolumesLoop, hr] at h
      exact absurd h (by simp)
    | ok u =>
      simp only [upVolumesLoop, hr] at h ⊢
      simp only [List.map_cons]
      exact congrArg (List.cons (k, upVolumeEntry projectName k volume))
        (upVolumesLoop_ok projectName rest _ h)

/-- C5 (counterexample): `Up` is not mutation-free: with a fresh runtime and
a project declaring the default network `default`, after `Up` returns the
project's network entry has been renamed to `demo_default`, differing from
what the caller passed in. -/
theorem upImmutableClaim_false : ¬ upImmutableClaim := by
  intro h
  exact absurd (h {} upProject).1 (by decide)

/-- C5 (amended): a successful `Up` pass leaves the project name, services,
working directory and source files unchanged, but rewrites every network
entry by `upNetworkEntry` (renaming a non-external network whose name equals
its key to `<project>_<key>`, with label additions visible when the entry's
label map was non-nil) and every volume entry by `upVolumeEntry`
(analogously, renaming on any non-empty name). -/
theorem up_mutates_project (rt : Runtime) (p : Project)
    (h : (Up rt p).result = .ok ()) :
    (Up rt p).project.Name = p.Name
    ∧ (Up rt p).project.Services = p.Services
    ∧ (Up rt p).project.WorkingDir = p.WorkingDir
    ∧ (Up rt p).project.ComposeFiles = p.ComposeFiles
    ∧ (Up rt p).project.Networks =
        p.Networks.map (fun kv => (kv.1, upNetworkEntry p.Name kv.1 kv.2))
    ∧ (Up rt p).project.Volumes =
        p.Volumes.map (fun kv => (kv.1, upVolumeEntry p.Name kv.1 kv.2)) := by
  simp only [Up, ensureImagesExists] at h ⊢
  cases hn : (upNetworksLoop p.Name p.Networks rt).1 with
  | error e =>
    simp only [hn] at h
    exact absurd h (by simp)
  | ok u =>
    simp only [hn] at h ⊢
    cases hv : (upVolumesLoop p.Name p.Volumes (upNetworksLoop p.Name p.Networks rt).2.2.1).1 with
    | error e =>
      simp only [hv] at h
      exact absurd h (by simp)
    | ok u2 =>
      simp only [hv] at h ⊢
      refine ⟨trivial, trivial, trivial, trivial, ?_, ?_⟩
      · exact upNetworksLoop_ok p.Name p.Networks rt (by rw [hn])
      · exact upVolumesLoop_ok p.Name p.Volumes _ (by rw [hv])

/-- Witness for C5's amended statement at the default-network project. -/
theorem up_mutates_project_witness :
    (Up {} upProject).project.Name = upProject.Name
    ∧ (Up {} upProject).project.Services = upProject.Services
    ∧ (Up {} upProject).project.WorkingDir = upProject.WorkingDir
    ∧ (Up {} upProject).project.ComposeFiles = upProject.ComposeFiles
    ∧ (Up {} upProject).project.Networks =
        upProject.Networks.map (fun kv => (kv.1, upNetworkEntry upProject.Name kv.1 kv.2))
    ∧ (Up {} upProject).project.Volumes =
        upProject.Volumes.map (fun kv => (kv.1, upVolumeEntry upProject.Name kv.1 kv.2)) :=
  up_mutates_project {} upProject (by decide)

/-- Witness for C10: grouping succeeds with sorted distinct keys on fully
labelled containers and errors on a container missing the label. -/
theorem groupByLabel_correct_witness :
    (∃ sts, containersToServiceStatus [psWeb, psDb] = .ok sts ∧
      sts.map ServiceStatus.ID =
        sortStrings (([psWeb, psDb].map fun c =>
          (goLookup c.Labels serviceLabel).getD "").dedup)) ∧
    (∃ c ∈ [noLabelContainer], goLookup c.Labels serviceLabel = none ∧
      containersToServiceStatus [noLabelContainer] =
        .error (noLabelMessage serviceLabel c.ID)) ∧
    (∃ sks, containersToStacks [psWeb, psDb] = .ok sks ∧
      sks.map Stack.ID =
        sortStrings (([psWeb, psDb].map fun c =>
          (goLookup c.Labels projectLabel).getD "").dedup)) ∧
    (∃ c ∈ [noLabelContainer], goLookup c.Labels projectLabel = none ∧
      containersToStacks [noLabelContainer] = .error (noLabelMessage projectLabel c.ID)) :=
  ⟨(groupByLabel_correct [psWeb, psDb]).2.1 (by decide),
   (groupByLabel_correct [noLabelContainer]).1 (by decide),
   (groupByLabel_correct [psWeb, psDb]).2.2.2 (by decide),
   (groupByLabel_correct [noLabelContainer]).2.2.1 (by decide)⟩

end Compose
